import Mathlib

/-!
Verification of the Mechtronic 2 dual-IMU streaming system.

Shallow embedding of the parts of the repository the claims are about:
* `stats.h` / stats implementation (`Stats`, `stats_init`, `stats_update`,
  `stats_get_loss_rate`, `stats_print`) — base-station packet statistics;
* `packet.h` (`SensorPacket`, `PROTOCOL_VERSION`, `PACKET_SIZE`) — wire format;
* `main_base.ino` (`setup`, `loop`, `print_csv_line`) — base-station firmware
  serial output;
* the v1 base firmware (`print_packet_live`) — unit conversion;
* the frontend Live/Replay tabs (`onSample`, `onPlaybackSample`) — display
  ring buffers;
* the remote-unit button debouncer (`button_update`);
* the frontend WebSocket manager (`handleMessage`, `onMessage`).

Machine integers are modelled as `Nat`/`Int` with explicit `% 2^w` where the
C code can overflow; floats are modelled as `ℚ`.
-/

namespace Mechtronic

/-- `2^16`, the modulus of `uint16_t` arithmetic. -/
def U16 : ℕ := 65536

/-- `2^32`, the modulus of `uint32_t` arithmetic. -/
def U32 : ℕ := 4294967296

/- ### Decimal rendering of integers

`Serial.print` of an integer writes its decimal representation.  We embed that
rendering directly: the decimal digits of a natural number (most significant
first), and a leading `'-'` for negative integers. -/

/-- The list of decimal digit characters. -/
def decDigits : List Char := ['0','1','2','3','4','5','6','7','8','9']

/-- Decimal rendering of a natural number, as emitted by `Serial.print`. -/
def natChars (n : ℕ) : List Char :=
  if n = 0 then ['0'] else ((Nat.digits 10 n).map Nat.digitChar).reverse

/-- Decimal rendering of a (signed) integer, as emitted by `Serial.print`. -/
def intChars (z : ℤ) : List Char :=
  if z < 0 then '-' :: natChars z.natAbs else natChars z.natAbs

/-- The characters of a string literal. -/
def chars (s : String) : List Char := s.data

/- ### Packet statistics (`stats.h`, stats implementation)

```c
typedef struct {
    uint32_t packets_received;
    uint32_t packets_lost;
    uint16_t last_seq;
    bool     seq_initialized;
    uint32_t rate_start_time;
    uint32_t rate_packet_count;
    float    packets_per_sec;
} Stats;
```
-/

/-- The `Stats` struct.  `uint32_t`/`uint16_t` fields are `ℕ` (kept reduced
modulo `U32`/`U16` by the operations), the `float` field is `ℚ`. -/
structure Stats where
  packets_received : ℕ
  packets_lost : ℕ
  last_seq : ℕ
  seq_initialized : Bool
  rate_start_time : ℕ
  rate_packet_count : ℕ
  packets_per_sec : ℚ
deriving Repr, DecidableEq

/-- `stats_init`: zero all counters; `rate_start_time` is the current
`millis()` value. -/
def stats_init (now : ℕ) : Stats :=
  { packets_received := 0
    packets_lost := 0
    last_seq := 0
    seq_initialized := false
    rate_start_time := now
    rate_packet_count := 0
    packets_per_sec := 0 }

/-- `stats_update`: count the packet; on every packet but the first since
`stats_init`, compare `current_seq` with `expected = last_seq + 1` (in
`uint16_t` arithmetic) and add the gap to `packets_lost`.  The C source splits
the gap computation into the `current > expected` case (plain subtraction) and
the wraparound case (`(uint16_t)(current - expected)`); both are embedded as
written. -/
def stats_update (s : Stats) (current_seq : ℕ) : Stats :=
  let received := (s.packets_received + 1) % U32
  let rate_count := (s.rate_packet_count + 1) % U32
  if s.seq_initialized = false then
    { s with
        packets_received := received
        rate_packet_count := rate_count
        seq_initialized := true
        last_seq := current_seq }
  else
    let expected := (s.last_seq + 1) % U16
    let new_lost :=
      if current_seq ≠ expected then
        let lost :=
          if expected < current_seq then current_seq - expected
          else (current_seq + U16 - expected) % U16
        (s.packets_lost + lost) % U32
      else s.packets_lost
    { s with
        packets_received := received
        rate_packet_count := rate_count
        packets_lost := new_lost
        last_seq := current_seq }

/-- `stats_get_loss_rate`: `packets_lost / (packets_received + packets_lost)`,
with the total computed in `uint32_t` arithmetic and a zero-total guard.  The
`float` division is modelled as exact division in `ℚ`. -/
def stats_get_loss_rate (s : Stats) : ℚ :=
  let total : ℕ := (s.packets_received + s.packets_lost) % U32
  if total = 0 then 0 else (s.packets_lost : ℚ) / (total : ℚ)

/- ### The wire packet (`packet.h`)

```c
#define PROTOCOL_VERSION 0x01
#define PACKET_SIZE 32
typedef struct __attribute__((packed)) { ... } SensorPacket;
static_assert(sizeof(SensorPacket) == PACKET_SIZE, "Packet size must be 32 bytes");
```
-/

/-- `PROTOCOL_VERSION` (= `0x01`). -/
def PROTOCOL_VERSION : ℕ := 1

/-- `PACKET_SIZE` (= 32). -/
def PACKET_SIZE : ℕ := 32

/-- The `SensorPacket` struct: unsigned fields as `ℕ`, the twelve raw
`int16_t` sensor values as `ℤ`. -/
structure SensorPacket where
  version : ℕ
  seq : ℕ
  timestamp : ℕ
  button : ℕ
  mpu1_ax : ℤ
  mpu1_ay : ℤ
  mpu1_az : ℤ
  mpu1_gx : ℤ
  mpu1_gy : ℤ
  mpu1_gz : ℤ
  mpu2_ax : ℤ
  mpu2_ay : ℤ
  mpu2_az : ℤ
  mpu2_gx : ℤ
  mpu2_gy : ℤ
  mpu2_gz : ℤ
deriving Repr, DecidableEq

/-- The C scalar types used by `SensorPacket`. -/
inductive CType where
  | u8
  | u16
  | u32
  | i16
deriving Repr, DecidableEq

/-- `sizeof` a C scalar type. -/
def CType.size : CType → ℕ
  | .u8 => 1
  | .u16 => 2
  | .u32 => 4
  | .i16 => 2

/-- The field list of `SensorPacket`, in declaration order, as written in
`packet.h`. -/
def sensor_packet_fields : List (String × CType) :=
  [("version", .u8), ("seq", .u16), ("timestamp", .u32), ("button", .u8),
   ("mpu1_ax", .i16), ("mpu1_ay", .i16), ("mpu1_az", .i16),
   ("mpu1_gx", .i16), ("mpu1_gy", .i16), ("mpu1_gz", .i16),
   ("mpu2_ax", .i16), ("mpu2_ay", .i16), ("mpu2_az", .i16),
   ("mpu2_gx", .i16), ("mpu2_gy", .i16), ("mpu2_gz", .i16)]

/-- `sizeof` of a struct under `__attribute__((packed))`: the sum of the
field sizes, with no padding inserted. -/
def packed_sizeof (fields : List (String × CType)) : ℕ :=
  (fields.map (fun f => f.2.size)).sum

/-- Byte offset of field `i` of a packed struct: the sum of the sizes of the
fields declared before it. -/
def packed_offset (fields : List (String × CType)) (i : ℕ) : ℕ :=
  ((fields.take i).map (fun f => f.2.size)).sum

/- ### Base-station serial output (`main_base.ino`, `stats_print`)

Each `Serial.println` (or `print` sequence ended by `println`) emits one line;
a line is modelled as its list of characters. -/

/-- The CSV data line written by `print_csv_line`: the fifteen packet fields
in source order, a `','` printed between consecutive fields, no comma after
the last. -/
def print_csv_line (p : SensorPacket) : List Char :=
  natChars p.seq ++ [','] ++ natChars p.timestamp ++ [','] ++ natChars p.button ++ [','] ++
  intChars p.mpu1_ax ++ [','] ++ intChars p.mpu1_ay ++ [','] ++ intChars p.mpu1_az ++ [','] ++
  intChars p.mpu1_gx ++ [','] ++ intChars p.mpu1_gy ++ [','] ++ intChars p.mpu1_gz ++ [','] ++
  intChars p.mpu2_ax ++ [','] ++ intChars p.mpu2_ay ++ [','] ++ intChars p.mpu2_az ++ [','] ++
  intChars p.mpu2_gx ++ [','] ++ intChars p.mpu2_gy ++ [','] ++ intChars p.mpu2_gz

/-- Specification-side view of the CSV record: the fifteen rendered fields, in
the order `seq,t_device_ms,button,ax1,ay1,az1,gx1,gy1,gz1,ax2,ay2,az2,gx2,gy2,gz2`.
To be compared with `print_csv_line`, which is the embedding of the source. -/
def csv_fields (p : SensorPacket) : List (List Char) :=
  [natChars p.seq, natChars p.timestamp, natChars p.button,
   intChars p.mpu1_ax, intChars p.mpu1_ay, intChars p.mpu1_az,
   intChars p.mpu1_gx, intChars p.mpu1_gy, intChars p.mpu1_gz,
   intChars p.mpu2_ax, intChars p.mpu2_ay, intChars p.mpu2_az,
   intChars p.mpu2_gx, intChars p.mpu2_gy, intChars p.mpu2_gz]

/-- Boot banner printed by `setup`. -/
def boot_banner_line : List Char := chars "#Mechtronic Base Station v2.0"

/-- RF failure message printed by `setup`. -/
def rf_error_line : List Char := chars "#[ERROR] RF init failed!"

/-- RF ready message printed by `setup`. -/
def rf_ok_line : List Char := chars "#[OK] RF receiver ready"

/-- CSV header printed by `setup`. -/
def csv_header_line : List Char :=
  chars "#seq,t_remote_ms,btn,ax1,ay1,az1,gx1,gy1,gz1,ax2,ay2,az2,gx2,gy2,gz2"

/-- Version-mismatch warning printed by `loop` (`packet.version` is a
`uint8_t`, printed in decimal by `Serial.println`). -/
def warn_version_line (v : ℕ) : List Char :=
  chars "#[WARN] Bad version: " ++ natChars v

/-- The periodic statistics line written by `stats_print`.  The chunks appear
in the order of the `Serial.print` calls in the source; the two float values
(`packets_per_sec` printed with one decimal, the percentage with two) are
rendered here through an exact decimal of the rational value — the claims
about this line concern only its leading characters, which come from the
leading string literal either way. -/
def stat_line (s : Stats) : List Char :=
  chars "[STAT] rx=" ++ natChars s.packets_received ++
  chars " lost=" ++ natChars s.packets_lost ++
  chars " rate=" ++ chars (toString s.packets_per_sec) ++
  chars "pps loss=" ++ chars (toString (stats_get_loss_rate s * 100)) ++
  chars "%"

/-- The packet-handling branch of `loop` in `main_base.ino`: on a version
mismatch, print the warning and nothing else; otherwise update the statistics
and print exactly one CSV line.  Returns the new statistics state and the
list of lines written. -/
def loop_handle_packet (s : Stats) (p : SensorPacket) : Stats × List (List Char) :=
  if p.version ≠ PROTOCOL_VERSION then
    (s, [warn_version_line p.version])
  else
    (stats_update s p.seq, [print_csv_line p])

/- ### v1 base firmware: `print_packet_live`

`print_packet_live` prints `seq`, `button` and the six accelerometer values
converted by `raw / 16384.0`; the gyro fields are never printed or
converted. -/

/-- The conversion applied by `print_packet_live` to each accelerometer
value: `p->mpu?_a? / 16384.0` (the literal divisor from the source). -/
def accel_to_g (raw : ℤ) : ℚ := (raw : ℚ) / 16384

/-- The unit-converted values emitted by `print_packet_live`, in print order:
the six accelerometer readings in g.  No other field of the packet is unit
converted by the function. -/
def print_packet_live_values (p : SensorPacket) : List ℚ :=
  [accel_to_g p.mpu1_ax, accel_to_g p.mpu1_ay, accel_to_g p.mpu1_az,
   accel_to_g p.mpu2_ax, accel_to_g p.mpu2_ay, accel_to_g p.mpu2_az]

/- ### Frontend display buffers (Live tab `onSample`, Replay tab
`onPlaybackSample`)

```js
const MAX_POINTS = WINDOW_SECONDS * SAMPLE_RATE;   // 10 * 30
arr.push(x);
if (dataBuffer.time.length > MAX_POINTS) { arr = arr.slice(-MAX_POINTS); }
```

`slice(-C)` keeps the last `C` elements of the array. -/

/-- `WINDOW_SECONDS` (both tabs). -/
def WINDOW_SECONDS : ℕ := 10

/-- `SAMPLE_RATE` (both tabs). -/
def SAMPLE_RATE : ℕ := 30

/-- `MAX_POINTS = WINDOW_SECONDS * SAMPLE_RATE`. -/
def MAX_POINTS : ℕ := WINDOW_SECONDS * SAMPLE_RATE

/-- The last `n` elements of a list (what JavaScript `slice(-n)` returns for
`n ≤ l.length`). -/
def takeLast {α : Type} (n : ℕ) (l : List α) : List α := l.drop (l.length - n)

/-- One `push` followed by the trim of `onSample` / `onPlaybackSample`:
append, and when the length exceeds the capacity `cap` keep only the last
`cap` elements (`slice(-cap)`). -/
def pushTrim {α : Type} (cap : ℕ) (buf : List α) (x : α) : List α :=
  let grown := buf ++ [x]
  if cap < grown.length then grown.drop (grown.length - cap) else grown

/-- One sample as consumed by the Live tab's `onSample`: the timestamp
(`t_remote_ms / 1000`) and the six gyro rates pushed into the buffer.  The
`|| 0` defaulting of absent fields in the source is reflected by the fields
being total here. -/
structure LiveSample where
  time : ℚ
  gx1 : ℚ
  gy1 : ℚ
  gz1 : ℚ
  gx2 : ℚ
  gy2 : ℚ
  gz2 : ℚ
deriving Repr, DecidableEq

/-- The Live tab's `dataBuffer`: seven parallel arrays. -/
structure LiveBuffer where
  time : List ℚ
  gx1 : List ℚ
  gy1 : List ℚ
  gz1 : List ℚ
  gx2 : List ℚ
  gy2 : List ℚ
  gz2 : List ℚ
deriving Repr, DecidableEq

/-- The empty `dataBuffer` the Live tab starts with. -/
def liveBufferInit : LiveBuffer :=
  { time := [], gx1 := [], gy1 := [], gz1 := [], gx2 := [], gy2 := [], gz2 := [] }

/-- The buffer mutation of `onSample`: push each channel, then trim every
array to `MAX_POINTS` when the time array has grown past it.  Since all
arrays are pushed together they always share one length, so the trim is
embedded per-channel. -/
def onSample (buf : LiveBuffer) (s : LiveSample) : LiveBuffer :=
  { time := pushTrim MAX_POINTS buf.time s.time
    gx1 := pushTrim MAX_POINTS buf.gx1 s.gx1
    gy1 := pushTrim MAX_POINTS buf.gy1 s.gy1
    gz1 := pushTrim MAX_POINTS buf.gz1 s.gz1
    gx2 := pushTrim MAX_POINTS buf.gx2 s.gx2
    gy2 := pushTrim MAX_POINTS buf.gy2 s.gy2
    gz2 := pushTrim MAX_POINTS buf.gz2 s.gz2 }

/-- Run the Live tab over a sequence of samples. -/
def runLive (samples : List LiveSample) : LiveBuffer :=
  samples.foldl onSample liveBufferInit

/-- One sample as consumed by the Replay tab's `onPlaybackSample`. -/
structure PlaybackSample where
  time : ℚ
  g1_mag : ℚ
  g2_mag : ℚ
deriving Repr, DecidableEq

/-- The Replay tab's `dataBuffer`: four parallel arrays; `delta` holds
`Math.abs(g1_mag - g2_mag)`. -/
structure PlaybackBuffer where
  time : List ℚ
  g1_mag : List ℚ
  g2_mag : List ℚ
  delta : List ℚ
deriving Repr, DecidableEq

/-- The empty playback `dataBuffer`. -/
def playbackBufferInit : PlaybackBuffer :=
  { time := [], g1_mag := [], g2_mag := [], delta := [] }

/-- The buffer mutation of `onPlaybackSample`. -/
def onPlaybackSample (buf : PlaybackBuffer) (s : PlaybackSample) : PlaybackBuffer :=
  { time := pushTrim MAX_POINTS buf.time s.time
    g1_mag := pushTrim MAX_POINTS buf.g1_mag s.g1_mag
    g2_mag := pushTrim MAX_POINTS buf.g2_mag s.g2_mag
    delta := pushTrim MAX_POINTS buf.delta (|s.g1_mag - s.g2_mag|) }

/-- Run the Replay tab over a sequence of playback samples. -/
def runPlayback (samples : List PlaybackSample) : PlaybackBuffer :=
  samples.foldl onPlaybackSample playbackBufferInit

/- ### Remote-unit button debouncer (`button.c`, `button.h`)

```c
#define DEBOUNCE_MS 20
void button_update(void) {
    bool reading = (digitalRead(BUTTON_PIN) == LOW);
    unsigned long now = millis();
    if (reading != last_reading) { last_change = now; last_reading = reading; }
    if ((now - last_change) >= DEBOUNCE_MS) { current_state = last_reading; }
}
```
-/

/-- `DEBOUNCE_MS`. -/
def DEBOUNCE_MS : ℕ := 20

/-- The debouncer's static state. -/
structure BtnState where
  current_state : Bool
  last_reading : Bool
  last_change : ℕ
deriving Repr, DecidableEq

/-- One call to `button_update`, with the raw `digitalRead` outcome and the
`millis()` value as inputs.  The unsigned subtraction `now - last_change`
agrees with `ℕ` subtraction as long as `millis()` is monotone and has not
wrapped, which the theorems assume. -/
def button_update (st : BtnState) (reading : Bool) (now : ℕ) : BtnState :=
  let st1 :=
    if reading ≠ st.last_reading then
      { st with last_change := now, last_reading := reading }
    else st
  if DEBOUNCE_MS ≤ now - st1.last_change then
    { st1 with current_state := st1.last_reading }
  else st1

/-- The debouncer state after `n` calls to `button_update`, where call `k`
reads raw level `reading k` at time `time k`. -/
def btnStateAt (reading : ℕ → Bool) (time : ℕ → ℕ) (st0 : BtnState) : ℕ → BtnState
  | 0 => st0
  | n + 1 => button_update (btnStateAt reading time st0 n) (reading n) (time n)

/-- `button_is_pressed`: the reported stable state. -/
def button_is_pressed (st : BtnState) : Bool := st.current_state

/- ### Frontend WebSocket manager (`websocket.js`)

`handleMessage` iterates `messageHandlers` with `forEach`, wrapping each
handler call in `try`/`catch`; the unsubscribe closure returned by
`onMessage` does `indexOf` + `splice(index, 1)`. -/

/-- JavaScript `forEach` over callbacks that may throw: an uncaught exception
aborts the iteration.  Returns the elements whose callback actually ran as
well as the final outcome. -/
def forEachThrowTrace {α ε : Type} (f : α → Except ε Unit) : List α → List α × Except ε Unit
  | [] => ([], Except.ok ())
  | x :: xs =>
    match f x with
    | Except.error e => ([x], Except.error e)
    | Except.ok _ =>
      let rest := forEachThrowTrace f xs
      (x :: rest.1, rest.2)

/-- The `try { handler(data) } catch (error) { console.error(...) }` body of
`handleMessage`'s `forEach` callback: the handler's exception is swallowed. -/
def tryHandler {α ε : Type} (h : α → Except ε Unit) (msg : α) : Except ε Unit :=
  match h msg with
  | Except.error _ => Except.ok ()
  | Except.ok _ => Except.ok ()

/-- `handleMessage`: dispatch `msg` to every registered handler through the
catching callback; returns which handlers ran and the overall outcome.
Handlers are modelled as functions from the message to `Except`, an
exception being a thrown error. -/
def handleMessage {α ε : Type} (handlers : List (α → Except ε Unit)) (msg : α) :
    List (α → Except ε Unit) × Except ε Unit :=
  forEachThrowTrace (fun h => tryHandler h msg) handlers

/-- The unsubscribe closure returned by `onMessage`, acting on the handler
registry.  Handlers are identified by reference; references are modelled as
`ℕ`.  `indexOf` returns the index of the first occurrence (or the length when
absent, corresponding to `-1`), and `splice(index, 1)` removes that single
element. -/
def offMessage (h : ℕ) (handlers : List ℕ) : List ℕ :=
  let index := handlers.indexOf h
  if index < handlers.length then handlers.eraseIdx index else handlers

/- ### Concrete fixtures used to instantiate the theorems -/

/-- A statistics state mid-run: 10 packets received, 3 lost, last sequence
number 5. -/
def exampleStats : Stats :=
  { packets_received := 10, packets_lost := 3, last_seq := 5,
    seq_initialized := true, rate_start_time := 0, rate_packet_count := 0,
    packets_per_sec := 0 }

/-- A statistics state whose `uint32_t` total `received + lost` overflows. -/
def overflowStats : Stats :=
  { packets_received := 4294967295, packets_lost := 2, last_seq := 0,
    seq_initialized := true, rate_start_time := 0, rate_packet_count := 0,
    packets_per_sec := 0 }

/-- A small statistics state: 3 received, 1 lost. -/
def smallStats : Stats :=
  { packets_received := 3, packets_lost := 1, last_seq := 0,
    seq_initialized := true, rate_start_time := 0, rate_packet_count := 0,
    packets_per_sec := 0 }

/-- A well-formed packet with the current protocol version. -/
def protoPacket : SensorPacket :=
  { version := 1, seq := 7, timestamp := 100, button := 0,
    mpu1_ax := 1, mpu1_ay := 2, mpu1_az := 3,
    mpu1_gx := 4, mpu1_gy := 5, mpu1_gz := 6,
    mpu2_ax := 7, mpu2_ay := 8, mpu2_az := 9,
    mpu2_gx := -10, mpu2_gy := 11, mpu2_gz := -12 }

/-- The same packet with a wrong protocol version. -/
def badPacket : SensorPacket := { protoPacket with version := 2 }

/-- A packet whose gyro readings are all the raw value 131 and whose
accelerometer readings are all zero. -/
def gyroOnlyPacket : SensorPacket :=
  { version := 1, seq := 0, timestamp := 0, button := 0,
    mpu1_ax := 0, mpu1_ay := 0, mpu1_az := 0,
    mpu1_gx := 131, mpu1_gy := 131, mpu1_gz := 131,
    mpu2_ax := 0, mpu2_ay := 0, mpu2_az := 0,
    mpu2_gx := 131, mpu2_gy := 131, mpu2_gz := 131 }

/-- An all-zero Live-tab sample. -/
def zeroLiveSample : LiveSample :=
  { time := 0, gx1 := 0, gy1 := 0, gz1 := 0, gx2 := 0, gy2 := 0, gz2 := 0 }

/-- A raw button level that reads pressed on every call. -/
def exReading : ℕ → Bool := fun _ => true

/-- Call times spaced exactly one debounce interval apart. -/
def exTime : ℕ → ℕ := fun k => 20 * k

/-- Debouncer state as after `button_init` with the button released. -/
def exBtn0 : BtnState :=
  { current_state := false, last_reading := false, last_change := 0 }

/-- A message handler that always throws. -/
def throwingHandler : ℕ → Except String Unit := fun _ => Except.error "boom"

/-- A message handler that always succeeds. -/
def okHandler : ℕ → Except String Unit := fun _ => Except.ok ()

/-! ## Helper lemmas -/

theorem natChars_ne_nil (n : ℕ) : natChars n ≠ [] := by
  unfold natChars
  split
  · simp
  · simp [Nat.digits_ne_nil_iff_ne_zero, *]

theorem mem_natChars (n : ℕ) {c : Char} (hc : c ∈ natChars n) : c ∈ decDigits := by
  unfold natChars at hc
  split at hc
  · simp only [List.mem_singleton] at hc
    subst hc
    decide
  · simp only [List.mem_reverse, List.mem_map] at hc
    obtain ⟨d, hd, rfl⟩ := hc
    have hlt : d < 10 := Nat.digits_lt_base (by norm_num) hd
    interval_cases d <;> decide

theorem comma_not_mem_natChars (n : ℕ) : ',' ∉ natChars n := by
  intro h
  have h10 := mem_natChars n h
  revert h10
  decide

theorem intChars_ne_nil (z : ℤ) : intChars z ≠ [] := by
  unfold intChars
  split
  · simp
  · exact natChars_ne_nil _

theorem comma_not_mem_intChars (z : ℤ) : ',' ∉ intChars z := by
  unfold intChars
  split
  · intro h
    rcases List.mem_cons.mp h with h | h
    · exact absurd h (by decide)
    · exact comma_not_mem_natChars _ h
  · exact comma_not_mem_natChars _

/-! ## Claims -/

/-- C1: for every packet processed by `stats_update` after the first one
since `stats_init`, `packets_lost` increases by exactly
`(s - expected) mod 65536` where `expected = (last_seq + 1) mod 65536` —
exactly, whenever the `uint32_t` counter does not overflow, and modulo `2^32`
in general; the very first packet never increases `packets_lost`; the trace
`5,6,9` adds 2 and the wraparound trace `65534,65535,0,1` adds 0. -/
theorem c1_gap_detection :
    (∀ (s : Stats) (c : ℕ), s.seq_initialized = true → s.last_seq < U16 →
      c < U16 → s.packets_lost < U32 →
      (stats_update s c).packets_lost =
        (s.packets_lost + (c + U16 - (s.last_seq + 1) % U16) % U16) % U32
      ∧ (s.packets_lost + (c + U16 - (s.last_seq + 1) % U16) % U16 < U32 →
        (stats_update s c).packets_lost =
          s.packets_lost + (c + U16 - (s.last_seq + 1) % U16) % U16))
    ∧ (∀ (s : Stats) (c : ℕ), s.seq_initialized = false →
        (stats_update s c).packets_lost = s.packets_lost)
    ∧ (List.foldl stats_update (stats_init 0) [5, 6, 9]).packets_lost = 2
    ∧ (List.foldl stats_update (stats_init 0) [65534, 65535, 0, 1]).packets_lost = 0 := by
  refine ⟨?_, ?_, by decide, by decide⟩
  · intro s c hinit hseq hc hlost
    have hmain : (stats_update s c).packets_lost =
        (s.packets_lost + (c + U16 - (s.last_seq + 1) % U16) % U16) % U32 := by
      simp only [stats_update, hinit, Bool.true_eq_false, if_false]
      simp only [U16, U32] at *
      split_ifs with h1 h2 <;> omega
    refine ⟨hmain, fun hnof => ?_⟩
    rw [hmain]
    exact Nat.mod_eq_of_lt hnof
  · intro s c hinit
    simp [stats_update, hinit]

/-- Witness for C1: from `exampleStats` (`last_seq = 5`, `packets_lost = 3`),
sequence number 9 adds a gap of 3, giving 6. -/
theorem c1_gap_detection_witness :
    (stats_update exampleStats 9).packets_lost = 6 := by
  have h := (c1_gap_detection.1 exampleStats 9 rfl
      (by norm_num [exampleStats, U16]) (by norm_num [U16])
      (by norm_num [exampleStats, U32])).2
      (by norm_num [exampleStats, U16, U32])
  simpa [exampleStats, U16, U32] using h

/-- C8 counterexample: in the state `overflowStats`
(`packets_received = 2^32 - 1`, `packets_lost = 2`) the mathematical total is
nonzero, yet `stats_get_loss_rate` returns 2, which is outside `[0, 1]`:
the `uint32_t` total wraps to 1. -/
theorem c8_loss_rate_counterexample :
    overflowStats.packets_received + overflowStats.packets_lost ≠ 0
    ∧ 1 < stats_get_loss_rate overflowStats := by
  constructor
  · norm_num [overflowStats]
  · norm_num [stats_get_loss_rate, overflowStats, U32]

/-- C8 (amended): `stats_get_loss_rate` is total; it returns 0 when both
counters are zero, and whenever the `uint32_t` total
`packets_received + packets_lost` does not overflow it returns
`packets_lost / (packets_received + packets_lost)`, a value in `[0, 1]`. -/
theorem c8_loss_rate_total :
    ∀ s : Stats,
      (s.packets_received = 0 ∧ s.packets_lost = 0 → stats_get_loss_rate s = 0)
      ∧ (s.packets_received + s.packets_lost < U32 →
          (s.packets_received + s.packets_lost = 0 → stats_get_loss_rate s = 0)
          ∧ (s.packets_received + s.packets_lost ≠ 0 →
              stats_get_loss_rate s =
                (s.packets_lost : ℚ) / ((s.packets_received + s.packets_lost : ℕ) : ℚ))
          ∧ 0 ≤ stats_get_loss_rate s ∧ stats_get_loss_rate s ≤ 1) := by
  intro s
  constructor
  · rintro ⟨h1, h2⟩
    simp [stats_get_loss_rate, h1, h2]
  · intro hlt
    have htot : (s.packets_received + s.packets_lost) % U32 =
        s.packets_received + s.packets_lost := Nat.mod_eq_of_lt hlt
    by_cases h0 : s.packets_received + s.packets_lost = 0
    · have hr : s.packets_received = 0 := by omega
      have hl : s.packets_lost = 0 := by omega
      exact ⟨fun _ => by simp [stats_get_loss_rate, hr, hl],
        fun hne => absurd h0 hne,
        by simp [stats_get_loss_rate, hr, hl],
        by simp [stats_get_loss_rate, hr, hl]⟩
    · have hval : stats_get_loss_rate s =
          (s.packets_lost : ℚ) / ((s.packets_received + s.packets_lost : ℕ) : ℚ) := by
        simp [stats_get_loss_rate, htot, h0]
      have hpos : (0 : ℚ) < ((s.packets_received + s.packets_lost : ℕ) : ℚ) := by
        exact_mod_cast Nat.pos_of_ne_zero h0
      refine ⟨fun h => absurd h h0, fun _ => hval, ?_, ?_⟩
      · rw [hval]
        positivity
      · rw [hval, div_le_one hpos]
        exact_mod_cast Nat.le_add_left s.packets_lost s.packets_received

/-- Witness for C8 (amended): in `smallStats` (3 received, 1 lost) the loss
rate is `1/4` and lies below 1. -/
theorem c8_loss_rate_total_witness :
    stats_get_loss_rate smallStats = 1 / 4
    ∧ stats_get_loss_rate smallStats ≤ 1 := by
  have h := (c8_loss_rate_total smallStats).2 (by norm_num [smallStats, U32])
  refine ⟨?_, h.2.2.2⟩
  have hv := h.2.1 (by norm_num [smallStats])
  rw [hv]
  norm_num [smallStats]

/-- C10: the packed `SensorPacket` occupies exactly 32 bytes
(= `PACKET_SIZE`, so the `static_assert` holds), with `version` at byte 0,
`seq` at bytes 1-2, `timestamp` at bytes 3-6, `button` at byte 7, and the
twelve `int16_t` sensor values at consecutive even offsets from byte 8. -/
theorem c10_packet_layout :
    packed_sizeof sensor_packet_fields = PACKET_SIZE
    ∧ packed_offset sensor_packet_fields 0 = 0
    ∧ packed_offset sensor_packet_fields 1 = 1
    ∧ packed_offset sensor_packet_fields 2 = 3
    ∧ packed_offset sensor_packet_fields 3 = 7
    ∧ (∀ k, k < 12 → packed_offset sensor_packet_fields (4 + k) = 8 + 2 * k)
    ∧ sensor_packet_fields.length = 16 := by
  refine ⟨by decide, by decide, by decide, by decide, by decide, ?_, by decide⟩
  decide

/-- Witness for C10: the sixth sensor field (`mpu1_gz`, index 9) sits at
byte offset 18. -/
theorem c10_packet_layout_witness :
    packed_offset sensor_packet_fields 9 = 18 := by
  have h := c10_packet_layout.2.2.2.2.2.1 5 (by decide)
  simpa using h

/-- C5 counterexample: on `gyroOnlyPacket` (every gyro raw value 131, every
accelerometer raw value 0) `print_packet_live` emits only the six converted
accelerometer values, all 0; no emitted value is `1.00`, so the raw gyro
value 131 is never converted to `1.00 °/s` — the function performs no gyro
conversion at all. -/
theorem c5_no_gyro_conversion :
    print_packet_live_values gyroOnlyPacket = [0, 0, 0, 0, 0, 0]
    ∧ (1 : ℚ) ∉ print_packet_live_values gyroOnlyPacket := by
  constructor
  · norm_num [print_packet_live_values, gyroOnlyPacket, accel_to_g]
  · norm_num [print_packet_live_values, gyroOnlyPacket, accel_to_g]

/-- C5 (amended): `print_packet_live` divides each raw accelerometer value by
the literal 16384 to obtain g — raw `16384` converts to `1.00 g` and raw
`-16384` to `-1.00 g` — but converts only the six accelerometer values: its
output is independent of every gyro field, so no `raw / 131` gyro conversion
exists in the function. -/
theorem c5_accel_conversion_only :
    accel_to_g 16384 = 1
    ∧ accel_to_g (-16384) = -1
    ∧ (∀ p : SensorPacket, (print_packet_live_values p).length = 6)
    ∧ (∀ (p : SensorPacket) (g1x g1y g1z g2x g2y g2z : ℤ),
        print_packet_live_values
          { p with mpu1_gx := g1x, mpu1_gy := g1y, mpu1_gz := g1z,
                   mpu2_gx := g2x, mpu2_gy := g2y, mpu2_gz := g2z }
          = print_packet_live_values p) := by
  refine ⟨by norm_num [accel_to_g], by norm_num [accel_to_g],
    fun p => rfl, fun p g1x g1y g1z g2x g2y g2z => rfl⟩

theorem getLast?_not_mem {α : Type} {l : List α} {c : α} (h : c ∉ l) :
    l.getLast? ≠ some c := by
  intro hc
  obtain ⟨h0, heq⟩ := List.mem_getLast?_eq_getLast (Option.mem_def.mpr hc)
  exact h (heq ▸ List.getLast_mem h0)

theorem pushTrim_eq_takeLast {α : Type} (cap : ℕ) (b : List α) (x : α) :
    pushTrim cap b x = takeLast cap (b ++ [x]) := by
  simp only [pushTrim, takeLast]
  split
  · rfl
  · rename_i h
    rw [Nat.sub_eq_zero_of_le (le_of_not_lt h), List.drop_zero]

theorem takeLast_length {α : Type} (n : ℕ) (l : List α) :
    (takeLast n l).length = min n l.length := by
  simp only [takeLast, List.length_drop]
  omega

theorem takeLast_append_takeLast {α : Type} (n : ℕ) (l m : List α) :
    takeLast n (takeLast n l ++ m) = takeLast n (l ++ m) := by
  simp only [takeLast, List.drop_append_eq_append_drop, List.drop_drop,
    List.length_append, List.length_drop]
  congr 1 <;> congr 1 <;> omega

theorem foldl_pushTrim {α : Type} (cap : ℕ) (xs b : List α) (hb : b.length ≤ cap) :
    xs.foldl (pushTrim cap) b = takeLast cap (b ++ xs) := by
  induction xs generalizing b with
  | nil =>
    simp [takeLast, Nat.sub_eq_zero_of_le hb]
  | cons x xs ih =>
    have hlen : (pushTrim cap b x).length ≤ cap := by
      rw [pushTrim_eq_takeLast, takeLast_length]
      exact Nat.min_le_left _ _
    rw [List.foldl_cons, ih _ hlen, pushTrim_eq_takeLast, takeLast_append_takeLast]
    congr 1
    simp

theorem foldl_onSample_channels (samples : List LiveSample) :
    ∀ b : LiveBuffer,
      (samples.foldl onSample b).time
          = (samples.map LiveSample.time).foldl (pushTrim MAX_POINTS) b.time
      ∧ (samples.foldl onSample b).gx1
          = (samples.map LiveSample.gx1).foldl (pushTrim MAX_POINTS) b.gx1
      ∧ (samples.foldl onSample b).gy1
          = (samples.map LiveSample.gy1).foldl (pushTrim MAX_POINTS) b.gy1
      ∧ (samples.foldl onSample b).gz1
          = (samples.map LiveSample.gz1).foldl (pushTrim MAX_POINTS) b.gz1
      ∧ (samples.foldl onSample b).gx2
          = (samples.map LiveSample.gx2).foldl (pushTrim MAX_POINTS) b.gx2
      ∧ (samples.foldl onSample b).gy2
          = (samples.map LiveSample.gy2).foldl (pushTrim MAX_POINTS) b.gy2
      ∧ (samples.foldl onSample b).gz2
          = (samples.map LiveSample.gz2).foldl (pushTrim MAX_POINTS) b.gz2 := by
  induction samples with
  | nil => exact fun b => ⟨rfl, rfl, rfl, rfl, rfl, rfl, rfl⟩
  | cons s ss ih =>
    intro b
    simpa [onSample] using ih (onSample b s)

theorem foldl_onPlaybackSample_channels (samples : List PlaybackSample) :
    ∀ b : PlaybackBuffer,
      (samples.foldl onPlaybackSample b).time
          = (samples.map PlaybackSample.time).foldl (pushTrim MAX_POINTS) b.time
      ∧ (samples.foldl onPlaybackSample b).g1_mag
          = (samples.map PlaybackSample.g1_mag).foldl (pushTrim MAX_POINTS) b.g1_mag
      ∧ (samples.foldl onPlaybackSample b).g2_mag
          = (samples.map PlaybackSample.g2_mag).foldl (pushTrim MAX_POINTS) b.g2_mag
      ∧ (samples.foldl onPlaybackSample b).delta
          = (samples.map (fun s => |s.g1_mag - s.g2_mag|)).foldl
              (pushTrim MAX_POINTS) b.delta := by
  induction samples with
  | nil => exact fun b => ⟨rfl, rfl, rfl, rfl⟩
  | cons s ss ih =>
    intro b
    simpa [onPlaybackSample] using ih (onPlaybackSample b s)

/-- C4: `print_csv_line` writes one line of exactly 15 comma-separated
integer fields in the fixed order `seq, timestamp, button, ax1..gz1, ax2..gz2`
(the source-order print calls equal the comma-intercalation of the 15
rendered fields), each field nonempty and comma-free, and the line does not
end in a comma. -/
theorem c4_csv_format :
    ∀ p : SensorPacket,
      (csv_fields p).length = 15
      ∧ print_csv_line p = List.intercalate [','] (csv_fields p)
      ∧ (∀ f ∈ csv_fields p, f ≠ [] ∧ ',' ∉ f)
      ∧ (print_csv_line p).getLast? ≠ some ',' := by
  intro p
  refine ⟨rfl, ?_, ?_, ?_⟩
  · simp [print_csv_line, csv_fields, List.intercalate]
  · intro f hf
    simp only [csv_fields, List.mem_cons, List.not_mem_nil, or_false] at hf
    rcases hf with rfl|rfl|rfl|rfl|rfl|rfl|rfl|rfl|rfl|rfl|rfl|rfl|rfl|rfl|rfl <;>
      first
        | exact ⟨natChars_ne_nil _, comma_not_mem_natChars _⟩
        | exact ⟨intChars_ne_nil _, comma_not_mem_intChars _⟩
  · have hsome : (intChars p.mpu2_gz).getLast?.isSome :=
      List.getLast?_isSome.mpr (intChars_ne_nil p.mpu2_gz)
    obtain ⟨d, hd⟩ := Option.isSome_iff_exists.mp hsome
    have hdne : d ≠ ',' := by
      intro h
      exact getLast?_not_mem (comma_not_mem_intChars p.mpu2_gz) (h ▸ hd)
    simp only [print_csv_line, List.getLast?_append, hd, Option.or]
    simpa using hdne

/-- Witness for C4: on the concrete packet `protoPacket` the printed line is
the comma-intercalation of its 15 fields. -/
theorem c4_csv_format_witness :
    print_csv_line protoPacket = List.intercalate [','] (csv_fields protoPacket) :=
  (c4_csv_format protoPacket).2.1

/-- C2: every status line of the v2 base firmware begins with `'#'` — except
the periodic statistics line: `stats_print` writes `[STAT] rx=...`, whose
first character is `'['`, although the call-site comment in `loop` says the
statistics output starts with `#`.  A consumer that skips only `#`-lines
would try to parse the `[STAT]` line as a data record. -/
theorem c2_status_marker :
    boot_banner_line.head? = some '#'
    ∧ rf_error_line.head? = some '#'
    ∧ rf_ok_line.head? = some '#'
    ∧ csv_header_line.head? = some '#'
    ∧ (∀ v : ℕ, (warn_version_line v).head? = some '#')
    ∧ (∀ s : Stats, (stat_line s).head? = some '[')
    ∧ '[' ≠ '#' := by
  exact ⟨rfl, rfl, rfl, rfl, fun v => rfl, fun s => rfl, by decide⟩

/-- C3: the packet-handling branch of `loop` discards packets whose version
differs from `PROTOCOL_VERSION`: it emits only the `#`-prefixed warning line
(no CSV data line) and leaves the statistics state untouched; for a matching
version it updates the statistics via `stats_update` and emits exactly one
CSV line. -/
theorem c3_version_filtering :
    ∀ (s : Stats) (p : SensorPacket),
      (p.version ≠ PROTOCOL_VERSION →
        (loop_handle_packet s p).1 = s
        ∧ (loop_handle_packet s p).2 = [warn_version_line p.version]
        ∧ ∀ line ∈ (loop_handle_packet s p).2, line.head? = some '#')
      ∧ (p.version = PROTOCOL_VERSION →
        (loop_handle_packet s p).1 = stats_update s p.seq
        ∧ (loop_handle_packet s p).2 = [print_csv_line p]) := by
  intro s p
  constructor
  · intro hv
    refine ⟨by simp [loop_handle_packet, hv], by simp [loop_handle_packet, hv], ?_⟩
    intro line hline
    simp only [loop_handle_packet, hv, ne_eq, not_false_eq_true, if_true,
      List.mem_singleton] at hline
    subst hline
    rfl
  · intro hv
    constructor <;> simp [loop_handle_packet, hv]

/-- Witness for C3: a version-2 packet leaves the freshly initialized
statistics unchanged; the matching packet produces exactly its CSV line. -/
theorem c3_version_filtering_witness :
    (loop_handle_packet (stats_init 0) badPacket).1 = stats_init 0
    ∧ (loop_handle_packet (stats_init 0) protoPacket).2 = [print_csv_line protoPacket] := by
  exact ⟨((c3_version_filtering (stats_init 0) badPacket).1 (by decide)).1,
    ((c3_version_filtering (stats_init 0) protoPacket).2 (by decide)).2⟩

/-- C6: the display buffers evict FIFO.  After pushing any sequence of
samples, every channel of the Live-tab buffer equals the last `MAX_POINTS`
of the pushed values in their original order (so the buffer holds at most
`MAX_POINTS` entries, holds exactly the most recent `MAX_POINTS` once more
than `MAX_POINTS` have been pushed, and all parallel per-channel arrays have
the time array's length); likewise for the Replay-tab buffer, whose `delta`
channel holds `|g1_mag - g2_mag|`. -/
theorem c6_ring_buffer_fifo :
    (∀ samples : List LiveSample,
      ((runLive samples).time = takeLast MAX_POINTS (samples.map LiveSample.time)
        ∧ (runLive samples).gx1 = takeLast MAX_POINTS (samples.map LiveSample.gx1)
        ∧ (runLive samples).gy1 = takeLast MAX_POINTS (samples.map LiveSample.gy1)
        ∧ (runLive samples).gz1 = takeLast MAX_POINTS (samples.map LiveSample.gz1)
        ∧ (runLive samples).gx2 = takeLast MAX_POINTS (samples.map LiveSample.gx2)
        ∧ (runLive samples).gy2 = takeLast MAX_POINTS (samples.map LiveSample.gy2)
        ∧ (runLive samples).gz2 = takeLast MAX_POINTS (samples.map LiveSample.gz2))
      ∧ (runLive samples).time.length ≤ MAX_POINTS
      ∧ ((runLive samples).gx1.length = (runLive samples).time.length
        ∧ (runLive samples).gy1.length = (runLive samples).time.length
        ∧ (runLive samples).gz1.length = (runLive samples).time.length
        ∧ (runLive samples).gx2.length = (runLive samples).time.length
        ∧ (runLive samples).gy2.length = (runLive samples).time.length
        ∧ (runLive samples).gz2.length = (runLive samples).time.length)
      ∧ (MAX_POINTS < samples.length →
          (runLive samples).time
            = (samples.map LiveSample.time).drop (samples.length - MAX_POINTS)))
    ∧ (∀ samples : List PlaybackSample,
      (runPlayback samples).time = takeLast MAX_POINTS (samples.map PlaybackSample.time)
      ∧ (runPlayback samples).g1_mag
          = takeLast MAX_POINTS (samples.map PlaybackSample.g1_mag)
      ∧ (runPlayback samples).g2_mag
          = takeLast MAX_POINTS (samples.map PlaybackSample.g2_mag)
      ∧ (runPlayback samples).delta
          = takeLast MAX_POINTS (samples.map (fun s => |s.g1_mag - s.g2_mag|))
      ∧ (runPlayback samples).delta.length = (runPlayback samples).time.length) := by
  have hfold : ∀ (f : LiveSample → ℚ) (samples : List LiveSample),
      (samples.map f).foldl (pushTrim MAX_POINTS) ([] : List ℚ)
        = takeLast MAX_POINTS (samples.map f) := by
    intro f samples
    rw [foldl_pushTrim MAX_POINTS _ _ (by simp), List.nil_append]
  have hfoldp : ∀ (f : PlaybackSample → ℚ) (samples : List PlaybackSample),
      (samples.map f).foldl (pushTrim MAX_POINTS) ([] : List ℚ)
        = takeLast MAX_POINTS (samples.map f) := by
    intro f samples
    rw [foldl_pushTrim MAX_POINTS _ _ (by simp), List.nil_append]
  constructor
  · intro samples
    obtain ⟨h1, h2, h3, h4, h5, h6, h7⟩ := foldl_onSample_channels samples liveBufferInit
    have e1 : (runLive samples).time = takeLast MAX_POINTS (samples.map LiveSample.time) := by
      rw [runLive, h1]; exact hfold _ _
    have e2 : (runLive samples).gx1 = takeLast MAX_POINTS (samples.map LiveSample.gx1) := by
      rw [runLive, h2]; exact hfold _ _
    have e3 : (runLive samples).gy1 = takeLast MAX_POINTS (samples.map LiveSample.gy1) := by
      rw [runLive, h3]; exact hfold _ _
    have e4 : (runLive samples).gz1 = takeLast MAX_POINTS (samples.map LiveSample.gz1) := by
      rw [runLive, h4]; exact hfold _ _
    have e5 : (runLive samples).gx2 = takeLast MAX_POINTS (samples.map LiveSample.gx2) := by
      rw [runLive, h5]; exact hfold _ _
    have e6 : (runLive samples).gy2 = takeLast MAX_POINTS (samples.map LiveSample.gy2) := by
      rw [runLive, h6]; exact hfold _ _
    have e7 : (runLive samples).gz2 = takeLast MAX_POINTS (samples.map LiveSample.gz2) := by
      rw [runLive, h7]; exact hfold _ _
    have hlen : ∀ f : LiveSample → ℚ,
        (takeLast MAX_POINTS (samples.map f)).length = min MAX_POINTS samples.length := by
      intro f
      rw [takeLast_length, List.length_map]
    refine ⟨⟨e1, e2, e3, e4, e5, e6, e7⟩, ?_, ⟨?_, ?_, ?_, ?_, ?_, ?_⟩, ?_⟩
    · rw [e1, hlen]
      exact Nat.min_le_left _ _
    · rw [e1, e2, hlen, hlen]
    · rw [e1, e3, hlen, hlen]
    · rw [e1, e4, hlen, hlen]
    · rw [e1, e5, hlen, hlen]
    · rw [e1, e6, hlen, hlen]
    · rw [e1, e7, hlen, hlen]
    · intro hgt
      rw [e1]
      simp only [takeLast, List.length_map]
  · intro samples
    obtain ⟨h1, h2, h3, h4⟩ := foldl_onPlaybackSample_channels samples playbackBufferInit
    have e1 : (runPlayback samples).time
        = takeLast MAX_POINTS (samples.map PlaybackSample.time) := by
      rw [runPlayback, h1]; exact hfoldp _ _
    have e2 : (runPlayback samples).g1_mag
        = takeLast MAX_POINTS (samples.map PlaybackSample.g1_mag) := by
      rw [runPlayback, h2]; exact hfoldp _ _
    have e3 : (runPlayback samples).g2_mag
        = takeLast MAX_POINTS (samples.map PlaybackSample.g2_mag) := by
      rw [runPlayback, h3]; exact hfoldp _ _
    have e4 : (runPlayback samples).delta
        = takeLast MAX_POINTS (samples.map (fun s => |s.g1_mag - s.g2_mag|)) := by
      rw [runPlayback, h4]; exact hfoldp _ _
    refine ⟨e1, e2, e3, e4, ?_⟩
    rw [e1, e4, takeLast_length, takeLast_length, List.length_map, List.length_map]

theorem btn_invariant (reading : ℕ → Bool) (time : ℕ → ℕ) (st0 : BtnState)
    (hmono : ∀ i j, i ≤ j → time i ≤ time j) (h0 : st0.last_change ≤ time 0) :
    ∀ i, (btnStateAt reading time st0 i).last_change ≤ time i
      ∧ (∀ k, k < i → (btnStateAt reading time st0 i).last_change < time k →
          reading k = (btnStateAt reading time st0 i).last_reading) := by
  intro i
  induction i with
  | zero => exact ⟨h0, fun k hk => absurd hk (Nat.not_lt_zero k)⟩
  | succ i ih =>
    obtain ⟨ih1, ih2⟩ := ih
    simp only [btnStateAt, button_update]
    split_ifs with hflip hdeb hdeb
    · refine ⟨?_, ?_⟩
      · simpa using hmono i (i + 1) (Nat.le_succ i)
      · intro k hk hlc
        simp only at hlc
        have hki : time k ≤ time i := hmono k i (Nat.lt_succ_iff.mp hk)
        omega
    · refine ⟨?_, ?_⟩
      · simpa using hmono i (i + 1) (Nat.le_succ i)
      · intro k hk hlc
        simp only at hlc
        have hki : time k ≤ time i := hmono k i (Nat.lt_succ_iff.mp hk)
        omega
    · have hr : reading i = (btnStateAt reading time st0 i).last_reading := by
        by_contra h
        exact hflip h
      refine ⟨?_, ?_⟩
      · simpa using le_trans ih1 (hmono i (i + 1) (Nat.le_succ i))
      · intro k hk hlc
        simp only at hlc ⊢
        rcases Nat.lt_succ_iff_lt_or_eq.mp hk with hk2 | rfl
        · exact ih2 k hk2 hlc
        · exact hr
    · have hr : reading i = (btnStateAt reading time st0 i).last_reading := by
        by_contra h
        exact hflip h
      refine ⟨?_, ?_⟩
      · exact le_trans ih1 (hmono i (i + 1) (Nat.le_succ i))
      · intro k hk hlc
        rcases Nat.lt_succ_iff_lt_or_eq.mp hk with hk2 | rfl
        · exact ih2 k hk2 hlc
        · exact hr

/-- C7: the debouncer changes the reported stable state only after the raw
reading has held the new value for the full debounce interval.  If
`current_state` takes a new value `v` at call `i` of `button_update`, then
the call `i` read `v`, every call within `DEBOUNCE_MS` before call `i` read
`v`, and the raw reading last changed at least `DEBOUNCE_MS` before call `i`
— so a bounce that reverts within the interval produces no state change. -/
theorem c7_debounce (reading : ℕ → Bool) (time : ℕ → ℕ) (st0 : BtnState)
    (hmono : ∀ i j, i ≤ j → time i ≤ time j) (h0 : st0.last_change ≤ time 0)
    (i : ℕ) (v : Bool)
    (hnew : (btnStateAt reading time st0 (i + 1)).current_state = v)
    (hold : (btnStateAt reading time st0 i).current_state ≠ v) :
    reading i = v
    ∧ (∀ k, k ≤ i → time i < time k + DEBOUNCE_MS → reading k = v)
    ∧ (btnStateAt reading time st0 i).last_change + DEBOUNCE_MS ≤ time i := by
  obtain ⟨hlc, hread⟩ := btn_invariant reading time st0 hmono h0 i
  simp only [btnStateAt, button_update] at hnew
  split_ifs at hnew with hflip hdeb hdeb
  · dsimp only at hdeb
    unfold DEBOUNCE_MS at hdeb
    omega
  · dsimp only at hnew
    exact absurd hnew hold
  · have hr : reading i = (btnStateAt reading time st0 i).last_reading := by
      by_contra h
      exact hflip h
    have hv : (btnStateAt reading time st0 i).last_reading = v := by simpa using hnew
    have hri : reading i = v := hr.trans hv
    have hlc20 : (btnStateAt reading time st0 i).last_change + DEBOUNCE_MS ≤ time i := by
      omega
    refine ⟨hri, ?_, hlc20⟩
    intro k hkle hwin
    rcases Nat.lt_or_ge k i with hk2 | hk2
    · have hlck : (btnStateAt reading time st0 i).last_change < time k := by omega
      exact (hread k hk2 hlck).trans hv
    · have hki : k = i := le_antisymm hkle hk2
      subst hki
      exact hri
  · exact absurd hnew hold

/-- Witness for C7: with the button held pressed from time 0 and calls every
20 ms, the state change at call 1 satisfies the debounce guarantees. -/
theorem c7_debounce_witness :
    exReading 1 = true
    ∧ (btnStateAt exReading exTime exBtn0 1).last_change + DEBOUNCE_MS ≤ exTime 1 := by
  have h := c7_debounce exReading exTime exBtn0
    (fun i j hij => by simp only [exTime]; omega)
    (by decide) 1 true (by decide) (by decide)
  exact ⟨h.1, h.2.2⟩

/-- Witness for C6: pushing 301 identical samples into the 300-point Live
buffer retains the most recent 300, dropping the oldest one. -/
theorem c6_ring_buffer_fifo_witness :
    MAX_POINTS < (List.replicate 301 zeroLiveSample).length
    ∧ (runLive (List.replicate 301 zeroLiveSample)).time
        = ((List.replicate 301 zeroLiveSample).map LiveSample.time).drop
            ((List.replicate 301 zeroLiveSample).length - MAX_POINTS) := by
  have hlt : MAX_POINTS < (List.replicate 301 zeroLiveSample).length := by
    rw [List.length_replicate]
    norm_num [MAX_POINTS, WINDOW_SECONDS, SAMPLE_RATE]
  exact ⟨hlt, (c6_ring_buffer_fifo.1 (List.replicate 301 zeroLiveSample)).2.2.2 hlt⟩

theorem tryHandler_ok {α ε : Type} (h : α → Except ε Unit) (msg : α) :
    tryHandler h msg = Except.ok () := by
  unfold tryHandler
  cases h msg <;> rfl

theorem forEachThrowTrace_all_ok {α ε : Type} (f : α → Except ε Unit)
    (hf : ∀ x, f x = Except.ok ()) (l : List α) :
    forEachThrowTrace f l = (l, Except.ok ()) := by
  induction l with
  | nil => rfl
  | cons x xs ih =>
    simp [forEachThrowTrace, hf x, ih]

theorem offMessage_eq_erase (h : ℕ) (handlers : List ℕ) :
    offMessage h handlers = handlers.erase h := by
  unfold offMessage
  by_cases hmem : h ∈ handlers
  · rw [if_pos (List.indexOf_lt_length.mpr hmem)]
    exact List.eraseIdx_indexOf_eq_erase h handlers
  · rw [if_neg ?_, List.erase_of_not_mem hmem]
    intro hlt
    exact hmem (List.indexOf_lt_length.mp hlt)

/-- C9: `handleMessage` delivers every incoming message to every registered
handler — each handler call is wrapped in a catch, so a throwing handler
neither aborts the dispatch loop nor prevents delivery to the remaining
handlers — and the unsubscribe closure returned by `onMessage` removes
exactly one occurrence of its own handler, leaving every other registered
handler (and the order) intact. -/
theorem c9_fanout_isolation :
    (∀ (msg : ℕ) (handlers : List (ℕ → Except String Unit)),
        (handleMessage handlers msg).1 = handlers
        ∧ (handleMessage handlers msg).2 = Except.ok ())
    ∧ (∀ (h : ℕ) (handlers : List ℕ),
        offMessage h handlers = handlers.erase h
        ∧ (h ∈ handlers →
            (offMessage h handlers).length + 1 = handlers.length
            ∧ (offMessage h handlers).count h + 1 = handlers.count h)
        ∧ (∀ j, j ≠ h → (offMessage h handlers).count j = handlers.count j)
        ∧ (offMessage h handlers).Sublist handlers
        ∧ (h ∉ handlers → offMessage h handlers = handlers)) := by
  constructor
  · intro msg handlers
    have hres := forEachThrowTrace_all_ok (fun h => tryHandler h msg)
      (fun h => tryHandler_ok h msg) handlers
    unfold handleMessage
    rw [hres]
    exact ⟨rfl, rfl⟩
  · intro h handlers
    have he := offMessage_eq_erase h handlers
    refine ⟨he, ?_, ?_, ?_, ?_⟩
    · intro hmem
      constructor
      · rw [he, List.length_erase_of_mem hmem]
        have := List.length_pos.mpr (List.ne_nil_of_mem hmem)
        omega
      · rw [he, List.count_erase_self]
        have := List.count_pos_iff.mpr hmem
        omega
    · intro j hj
      rw [he]
      exact List.count_erase_of_ne hj handlers
    · rw [he]
      exact List.erase_sublist h handlers
    · intro hmem
      rw [he]
      exact List.erase_of_not_mem hmem

/-- Witness for C9: a throwing handler does not stop dispatch to the handler
after it, and unsubscribing handler 2 from `[1, 2, 3]` removes exactly that
one entry. -/
theorem c9_fanout_isolation_witness :
    (handleMessage [throwingHandler, okHandler] 0).1 = [throwingHandler, okHandler]
    ∧ (offMessage 2 [1, 2, 3]).count 2 + 1 = List.count 2 [1, 2, 3] := by
  exact ⟨(c9_fanout_isolation.1 0 [throwingHandler, okHandler]).1,
    ((c9_fanout_isolation.2 2 [1, 2, 3]).2.1 (by decide)).2⟩

end Mechtronic
